import Mathlib

/-!
Shallow embedding of the dbmate PostgreSQL driver
(src/pkg/driver/postgres/postgres.go).

Conventions of the embedding:
* Database/network effects are passed in explicitly: the outcome of an
  `Exec`/`Ping` call is an `Option DbError` (`none` = success), the outcome
  of a value query is an `Except DbError String`.
* Server-side SQL evaluation that the Go code delegates to PostgreSQL
  (`order by`, `limit`, `quote_ident`, `quote_literal`) is modelled
  explicitly: ordering/limiting by `List.mergeSort`/`List.take`, and the
  server quoting functions as abstract parameters, since the Go code never
  inspects their output.
* Go byte strings are Lean `String`s; `os.Getenv` results and URL contents
  are explicit parameters.
-/

deriving instance DecidableEq for Except

namespace DbmatePg

/-- Go `strings.Split` with a one-character separator (the driver only ever
splits on `"."` and `","`), on the underlying character list. Splitting the
empty list yields `[[]]`, like Go's `Split("", sep) = [""]`. -/
def splitOnCharList (sep : Char) : List Char → List (List Char)
  | [] => [[]]
  | c :: rest =>
    let r := splitOnCharList sep rest
    if c == sep then [] :: r
    else
      match r with
      | [] => [[c]]
      | g :: gs => (c :: g) :: gs

/-- Go `strings.Split(s, sep)` for a one-character separator. -/
def goSplit (s : String) (sep : Char) : List String :=
  (splitOnCharList sep s.data).map String.mk

/-- Drop leading whitespace characters from a character list. -/
def dropLeadingWhitespace : List Char → List Char
  | [] => []
  | c :: rest => if c.isWhitespace then dropLeadingWhitespace rest else c :: rest

/-- Go `strings.TrimSpace`: remove leading and trailing whitespace (the
ASCII whitespace characters; the driver's inputs are URL query strings). -/
def goTrimSpace (s : String) : String :=
  String.mk (dropLeadingWhitespace (dropLeadingWhitespace s.data.reverse).reverse)

/-- Driver-level database errors. `pq` models a value of type `*pq.Error`
with its `Code` and `Position` fields (the only fields the driver reads);
`generic` models every other Go error value. -/
inductive DbError where
  | pq (code : String) (position : String)
  | generic (msg : String)
deriving Repr, DecidableEq

/-- Whether the error is a `*pq.Error` carrying the given SQLSTATE code.
Embeds both Go patterns used in the source (`errors.As` + code comparison in
`DatabaseExists`/`Ping`, and the direct type assertion in
`CreateMigrationsTable`): both succeed exactly on a `pq.Error` value. -/
def isPqCode (e : DbError) (c : String) : Bool :=
  match e with
  | .pq code _ => code == c
  | .generic _ => false

/-- Connection URL model: the components of `net/url.URL` that the driver
reads. The query string is kept parsed, as an association list of
key/value pairs (Go's `url.Values` with one value per key); percent
encoding is elided since the driver never introduces characters needing
it. -/
structure URL where
  scheme : String
  user : Option String
  host : String
  path : String
  query : List (String × String)
deriving Repr, DecidableEq

/-- Go `url.Values.Get`: first value for the key, or `""` when absent. -/
def queryGet (q : List (String × String)) (k : String) : String :=
  match q.find? (fun p => p.1 == k) with
  | some p => p.2
  | none => ""

/-- Go `url.Values.Del`: remove every pair with the given key. -/
def queryDel (q : List (String × String)) (k : String) : List (String × String) :=
  q.filter (fun p => !(p.1 == k))

/-- Go `url.Values.Encode`: pairs sorted by key, rendered `k=v` and joined
with `&` (percent encoding elided, see `URL`). -/
def encodeQuery (q : List (String × String)) : String :=
  String.intercalate "&"
    ((List.insertionSort (fun a b => a.1 ≤ b.1) q).map (fun p => p.1 ++ "=" ++ p.2))

/-- Go `url.URL.String`: reassemble the URL, appending `?query` only when
the encoded query is nonempty. -/
def URL.render (u : URL) : String :=
  let rawQuery := encodeQuery u.query
  u.scheme ++ "://" ++
    (match u.user with
     | some un => un ++ "@"
     | none => "") ++
    u.host ++ u.path ++
    (if rawQuery == "" then "" else "?" ++ rawQuery)

/-- `resolveDatabaseName` (postgres.go:43-59): URL path without its leading
slash, else the `PGDATABASE` environment variable (passed explicitly as
`pgdatabase`; Go `os.Getenv` yields `""` when unset), else the URL user's
name when a user is present, else `""`. -/
def resolveDatabaseName (u : URL) (pgdatabase : String) : String :=
  let name := u.path
  let name := if name.length > 0 && name.take 1 == "/" then name.drop 1 else name
  let name := if name == "" then pgdatabase else name
  let name :=
    if name == "" then
      match u.user with
      | some un => un
      | none => name
    else name
  name

/-- `connectionArgsForDump` (postgres.go:61-78): split the `search_path`
query parameter on commas, emit `--schema s` for each entry whose trimmed
form is nonempty, then append the URL rendered with `search_path` removed
from its query. -/
def connectionArgsForDump (u : URL) : List String :=
  let schemas := goSplit (queryGet u.query "search_path") ','
  let u2 : URL := { u with query := queryDel u.query "search_path" }
  let args := schemas.foldl
    (fun args schema =>
      let s := goTrimSpace schema
      if s == "" then args else args ++ ["--schema", s])
    []
  args ++ [u2.render]

/-- `DatabaseExists` (postgres.go:173-184) as a function of the outcome of
the internal `ping` (`none` = ping succeeded): success yields
`(true, none)`; a `pq.Error` with SQLSTATE 3D000 ("database does not
exist") yields `(false, none)`; any other failure yields
`(false, some err)`. -/
def databaseExists (pingResult : Option DbError) : Bool × Option DbError :=
  match pingResult with
  | none => (true, none)
  | some err =>
    if isPqCode err "3D000" then (false, none) else (false, some err)

/-- `migrationsTableNameParts` (postgres.go:347-377). Inputs: the configured
table name, the connection URL (for its `search_path` query parameter) and
the outcome of the `select current_schema()` query, which is only consulted
when the earlier steps leave the schema empty. -/
def migrationsTableNameParts (migrationsTableName : String) (u : URL)
    (currentSchema : Except DbError String) :
    Except DbError (String × List String) :=
  let parts0 := goSplit migrationsTableName '.'
  -- schema specified as part of table name (len(parts) > 1)?
  let split := if parts0.length > 1 then (parts0.headD "", parts0.tail) else ("", parts0)
  let tableNameParts := split.2
  -- no schema specified with table name: try URL search path if available
  let schema1 :=
    if split.1 == "" then
      goTrimSpace ((goSplit (queryGet u.query "search_path") ',').headD "")
    else split.1
  -- if still empty, use the current schema from the live connection
  let queried : Except DbError String :=
    if schema1 == "" then currentSchema else .ok schema1
  match queried with
  | .error e => .error e
  | .ok schema2 =>
    -- fall back to public schema as last resort
    .ok (if schema2 == "" then "public" else schema2, tableNameParts)

/-- The pair `(table_schema, table_name)` that `MigrationsTableExists`
(postgres.go:187-205) binds into its `information_schema.tables` lookup:
the resolved schema, and the remaining name parts joined with a literal
dot. -/
def migrationsTableExistsLookup (migrationsTableName : String) (u : URL)
    (currentSchema : Except DbError String) :
    Except DbError (String × String) :=
  match migrationsTableNameParts migrationsTableName u currentSchema with
  | .error e => .error e
  | .ok (schema, parts) => .ok (schema, String.intercalate "." parts)

/-- `quotedMigrationsTableNameParts` (postgres.go:379-397). The server-side
`select quote_ident(unnest($1::text[]))` round trip is modelled by mapping
the abstract server quoting function `qi` over the submitted parts in
order. Returns the quoted schema and the remaining quoted parts joined
with a dot. -/
def quotedMigrationsTableNameParts (migrationsTableName : String) (u : URL)
    (currentSchema : Except DbError String) (qi : String → String) :
    Except DbError (String × String) :=
  match migrationsTableNameParts migrationsTableName u currentSchema with
  | .error e => .error e
  | .ok (schema, tableNameParts) =>
    let quotedNameParts := (schema :: tableNameParts).map qi
    .ok (quotedNameParts.headD "", String.intercalate "." quotedNameParts.tail)

/-- `quotedMigrationsTableName` (postgres.go:338-345): quoted schema and
quoted table name joined with a dot. -/
def quotedMigrationsTableName (migrationsTableName : String) (u : URL)
    (currentSchema : Except DbError String) (qi : String → String) :
    Except DbError String :=
  match quotedMigrationsTableNameParts migrationsTableName u currentSchema qi with
  | .error e => .error e
  | .ok (schema, name) => .ok (schema ++ "." ++ name)

/-- The statements `CreateMigrationsTable` can issue against the
connection, in order of execution. -/
inductive SqlOp where
  | createTable
  | createSchema
deriving Repr, DecidableEq

/-- `CreateMigrationsTable` (postgres.go:208-242) as a function of the
outcomes of the at most three `Exec` calls it can make (first
`create table if not exists`, `create schema if not exists`, second
`create table if not exists`; `none` = success). Returns the sequence of
statements actually issued and the function's final error result. -/
def createMigrationsTable (execCreateTable1 execCreateSchema execCreateTable2 : Option DbError) :
    List SqlOp × Option DbError :=
  match execCreateTable1 with
  | none => ([.createTable], none)
  | some err =>
    if !(isPqCode err "3F000") then
      ([.createTable], some err)
    else
      match execCreateSchema with
      | some err2 => ([.createTable, .createSchema], some err2)
      | none => ([.createTable, .createSchema, .createTable], execCreateTable2)

/-- Server evaluation of the ledger query in `schemaMigrationsDump`
(postgres.go:129-130): `select quote_literal(version) from <table> order by
version asc` over a ledger holding `versions`, with `ql` the server's
`quote_literal`. Rows come back in ascending version order. -/
def ledgerVersionsAsc (ql : String → String) (versions : List String) : List String :=
  (List.insertionSort (· ≤ ·) versions).map ql

/-- The formatting half of `schemaMigrationsDump` (postgres.go:135-145),
applied to the rows returned by the ledger query: the fixed banner
followed, when at least one migration is applied, by a single multi-row
INSERT listing the queried literals in order. -/
def schemaMigrationsDumpBuf (migrationsTable : String) (migrations : List String) : String :=
  let buf := "\n--\n-- Dbmate schema migrations\n--\n\n"
  if migrations.length > 0 then
    buf ++ "INSERT INTO " ++ migrationsTable ++ " (version) VALUES\n    (" ++
      String.intercalate "),\n    (" migrations ++ ");\n"
  else
    buf

/-- `schemaMigrationsDump` (postgres.go:122-146) end to end on a ledger
state: query the applied versions ascending (server-quoted by `ql`), then
format them. -/
def schemaMigrationsDump (migrationsTable : String) (ql : String → String)
    (versions : List String) : String :=
  schemaMigrationsDumpBuf migrationsTable (ledgerVersionsAsc ql versions)

/-- The SQL text `SelectMigrations` (postgres.go:252-255) builds: the
descending-order select, with a `limit` clause appended exactly when
`limit ≥ 0`. -/
def selectMigrationsQuery (migrationsTable : String) (limit : Int) : String :=
  let query := "select version from " ++ migrationsTable ++ " order by version desc"
  if limit ≥ 0 then query ++ " limit " ++ toString limit else query

/-- Server evaluation of that query over a ledger holding `versions`:
rows in descending version order, truncated to `limit` rows when
`limit ≥ 0`, unbounded otherwise. `SelectMigrations` scans these rows in
order into its result set. -/
def selectMigrationsRows (versions : List String) (limit : Int) : List String :=
  let sorted := List.insertionSort (fun a b : String => b ≤ a) versions
  if limit ≥ 0 then sorted.take limit.toNat else sorted

/-- Go `strconv.Atoi`: optional single `+`/`-` sign, then one or more
decimal digits, value required to fit a 64-bit `int`; `none` on any
syntax or range error. -/
def goAtoi (s : String) : Option Int :=
  match s.data with
  | [] => none
  | c :: rest =>
    let signDigits : Bool × List Char :=
      if c == '-' then (true, rest)
      else if c == '+' then (false, rest)
      else (false, c :: rest)
    let neg := signDigits.1
    let digits := signDigits.2
    if digits.isEmpty then none
    else if digits.all Char.isDigit then
      let n : Nat := digits.foldl (fun acc d => acc * 10 + (d.toNat - '0'.toNat)) 0
      let v : Int := if neg then -(n : Int) else (n : Int)
      if -(2 ^ 63) ≤ v ∧ v ≤ 2 ^ 63 - 1 then some v else none
    else none

/-- The normalized error shape `dbmate.QueryError` that the driver's
`QueryError` produces. -/
structure NormalizedQueryError where
  err : DbError
  query : String
  position : Int
deriving Repr, DecidableEq

/-- `QueryError` (postgres.go:326-336): wrap the raw error and query text;
the position is the parsed `Position` field of a `pq.Error` when it parses
as an integer, and 0 otherwise. -/
def queryError (query : String) (err : DbError) : NormalizedQueryError :=
  let position : Int :=
    match err with
    | .pq _ pos =>
      match goAtoi pos with
      | some p => p
      | none => 0
    | .generic _ => 0
  { err := err, query := query, position := position }

/-- Shorthand for the schema candidate `migrationsTableNameParts` draws
from the URL's search path: the first comma-separated entry of the
`search_path` query parameter, trimmed of whitespace. -/
def searchPathSchema (u : URL) : String :=
  goTrimSpace ((goSplit (queryGet u.query "search_path") ',').headD "")

/-- Shorthand for the table-name parts `migrationsTableNameParts` keeps
alongside the schema: the dot-separated segments of the configured name,
with the first segment consumed when there are at least two. -/
def keptTableNameParts (tbl : String) : List String :=
  if 1 < (goSplit tbl '.').length then (goSplit tbl '.').tail else goSplit tbl '.'

/-- Shorthand for the first step of `resolveDatabaseName`: the URL path
with a leading slash removed. -/
def strippedPath (u : URL) : String :=
  if u.path.length > 0 && u.path.take 1 == "/" then u.path.drop 1 else u.path

/-! ## Helper lemmas -/

instance instIsTotalStringGe : IsTotal String (fun a b : String => b ≤ a) :=
  ⟨fun a b => le_total b a⟩

instance instIsTransStringGe : IsTrans String (fun a b : String => b ≤ a) :=
  ⟨fun _ _ _ hab hbc => le_trans hbc hab⟩

theorem foldl_schema_flags (schemas : List String) (acc : List String) :
    schemas.foldl
        (fun args schema =>
          let s := goTrimSpace schema
          if s == "" then args else args ++ ["--schema", s])
        acc
      = acc ++ ((schemas.map goTrimSpace).filter (fun s => !(s == ""))).flatMap
          (fun s => ["--schema", s]) := by
  induction schemas generalizing acc with
  | nil => simp
  | cons hd tl ih =>
    rw [List.foldl_cons, ih]
    by_cases h : goTrimSpace hd = ""
    · simp [h]
    · simp [h]

theorem strAppend5 (a b c d e f : String) :
    a ++ b ++ c ++ d ++ e ++ f = a ++ (b ++ c ++ d ++ e ++ f) := by
  simp [String.append_assoc]

theorem mtnp_dotted (tbl : String) (u : URL) (cs : Except DbError String)
    (h1 : 1 < (goSplit tbl '.').length) (h2 : (goSplit tbl '.').headD "" ≠ "") :
    migrationsTableNameParts tbl u cs =
      .ok ((goSplit tbl '.').headD "", (goSplit tbl '.').tail) := by
  simp only [List.headD_eq_head?_getD] at h2
  simp only [migrationsTableNameParts]
  rw [if_pos h1]
  simp [h2]

theorem mtnp_no_name_schema (tbl : String) (u : URL) (cs : Except DbError String)
    (h0 : (goSplit tbl '.').length ≤ 1 ∨ (goSplit tbl '.').headD "" = "") :
    migrationsTableNameParts tbl u cs =
      (if searchPathSchema u == "" then
         match cs with
         | .error e => .error e
         | .ok c => .ok (if c == "" then "public" else c, keptTableNameParts tbl)
       else .ok (searchPathSchema u, keptTableNameParts tbl)) := by
  simp only [migrationsTableNameParts, searchPathSchema, keptTableNameParts]
  by_cases hlen : 1 < (goSplit tbl '.').length
  · have h2 : (goSplit tbl '.').headD "" = "" := h0.resolve_left (by omega)
    simp only [List.headD_eq_head?_getD] at h2
    by_cases hsp : goTrimSpace ((goSplit (queryGet u.query "search_path") ',').headD "") = ""
    · simp only [List.headD_eq_head?_getD] at hsp
      cases cs <;> simp [hlen, h2, hsp]
    · simp only [List.headD_eq_head?_getD] at hsp
      simp [hlen, h2, hsp]
  · by_cases hsp : goTrimSpace ((goSplit (queryGet u.query "search_path") ',').headD "") = ""
    · simp only [List.headD_eq_head?_getD] at hsp
      cases cs <;> simp [hlen, hsp]
    · simp only [List.headD_eq_head?_getD] at hsp
      simp [hlen, hsp]

/-! ## Claim theorems -/

/-- Counterexample to C1 as stated: the configured name ".b" contains a
dot and its first dot-separated segment is the empty string, yet the
resolved schema is taken from the URL's search path ("foo"), not from
that first segment. -/
theorem migrationsTableSchema_cex :
    1 < (goSplit ".b" '.').length ∧
    (goSplit ".b" '.').headD "" = "" ∧
    migrationsTableNameParts ".b"
        { scheme := "postgres", user := none, host := "h", path := "/db",
          query := [("search_path", "foo")] } (.ok "cur")
      = .ok ("foo", ["b"]) ∧
    ("foo" : String) ≠ "" := by
  decide

/-- Claim C1 (amended): when the configured table name splits on dots into
two or more segments and the first segment is non-empty, the resolved
schema is that first segment, whatever the search path and current-schema
result are; otherwise (single segment, or an empty first segment, which is
stripped) the schema is the first comma-separated `search_path` entry
trimmed of whitespace; if that is empty, the current-schema query result;
if that is also empty, the literal "public". -/
theorem migrationsTableSchemaResolution (tbl : String) (u : URL) (cs : Except DbError String) :
    (1 < (goSplit tbl '.').length → (goSplit tbl '.').headD "" ≠ "" →
      migrationsTableNameParts tbl u cs
        = .ok ((goSplit tbl '.').headD "", (goSplit tbl '.').tail)) ∧
    ((goSplit tbl '.').length ≤ 1 ∨ (goSplit tbl '.').headD "" = "" →
      (searchPathSchema u ≠ "" →
        migrationsTableNameParts tbl u cs
          = .ok (searchPathSchema u, keptTableNameParts tbl)) ∧
      (searchPathSchema u = "" → ∀ c, cs = .ok c → c ≠ "" →
        migrationsTableNameParts tbl u cs = .ok (c, keptTableNameParts tbl)) ∧
      (searchPathSchema u = "" → cs = .ok "" →
        migrationsTableNameParts tbl u cs = .ok ("public", keptTableNameParts tbl))) := by
  refine ⟨mtnp_dotted tbl u cs, fun h0 => ?_⟩
  have hmain := mtnp_no_name_schema tbl u cs h0
  refine ⟨fun hsp => ?_, fun hsp c hc hcne => ?_, fun hsp hc => ?_⟩
  · rw [hmain]
    simp [hsp]
  · subst hc
    rw [hmain]
    simp [hsp, hcne]
  · subst hc
    rw [hmain]
    simp [hsp]

/-- Witness for C1 (amended): a dotted name "myschema.tbl" resolves to
schema "myschema" even with a conflicting search path and current
schema. -/
theorem migrationsTableSchemaResolution_witness :
    migrationsTableNameParts "myschema.tbl"
        { scheme := "postgres", user := none, host := "h", path := "/db",
          query := [("search_path", "other")] } (.ok "third")
      = .ok ((goSplit "myschema.tbl" '.').headD "", (goSplit "myschema.tbl" '.').tail) :=
  (migrationsTableSchemaResolution "myschema.tbl"
      { scheme := "postgres", user := none, host := "h", path := "/db",
        query := [("search_path", "other")] } (.ok "third")).1
    (by decide) (by decide)

/-- Claim C8: for every configured table name, connection URL and
current-schema query result (an empty result included), a successfully
completed resolution returns a non-empty schema. -/
theorem resolvedSchemaNonempty (tbl : String) (u : URL) (cs : Except DbError String)
    (schema : String) (parts : List String)
    (h : migrationsTableNameParts tbl u cs = .ok (schema, parts)) :
    schema ≠ "" := by
  by_cases hdot : 1 < (goSplit tbl '.').length ∧ (goSplit tbl '.').headD "" ≠ ""
  · rw [mtnp_dotted tbl u cs hdot.1 hdot.2] at h
    simp only [Except.ok.injEq, Prod.mk.injEq] at h
    exact h.1 ▸ hdot.2
  · have h0 : (goSplit tbl '.').length ≤ 1 ∨ (goSplit tbl '.').headD "" = "" := by
      rcases not_and_or.mp hdot with h' | h'
      · exact .inl (by omega)
      · exact .inr (not_not.mp h')
    rw [mtnp_no_name_schema tbl u cs h0] at h
    by_cases hsp : searchPathSchema u = ""
    · rw [hsp] at h
      cases cs with
      | error e => simp at h
      | ok c =>
        simp only [beq_self_eq_true, if_true, Except.ok.injEq, Prod.mk.injEq] at h
        rcases h with ⟨h1, h2⟩
        rw [← h1]
        by_cases hc : c = ""
        · simp [hc]
        · simp [hc]
    · simp [hsp] at h
      exact h.1 ▸ hsp

/-- Witness for C8: a concrete resolution whose current-schema query
returns the empty string still yields a non-empty schema ("public"). -/
theorem resolvedSchemaNonempty_witness : ("public" : String) ≠ "" :=
  resolvedSchemaNonempty "schema_migrations"
    { scheme := "postgres", user := none, host := "h", path := "/db", query := [] }
    (.ok "") "public" ["schema_migrations"] (by decide)

/-- Counterexample to C10 as stated: ".b.c" has three dot-separated
segments, but its first segment is empty, so the existence check's
table_schema is resolved from the search path ("s"), not from that first
segment. -/
theorem dottedLookup_cex :
    3 ≤ (goSplit ".b.c" '.').length ∧
    (goSplit ".b.c" '.').headD "" = "" ∧
    migrationsTableExistsLookup ".b.c"
        { scheme := "postgres", user := none, host := "h", path := "/db",
          query := [("search_path", "s")] } (.ok "x")
      = .ok ("s", "b.c") ∧
    ("s" : String) ≠ "" := by
  decide

/-- Claim C10 (amended): for every configured table name splitting into
three or more dot-separated segments whose first segment is non-empty,
the existence check looks up the catalog row whose table_schema is the
first segment and whose table_name is the remaining segments re-joined
with a literal dot, whereas the quoted identity quotes each remaining
segment separately (through the server quoting function) and joins the
quoted segments with a dot. -/
theorem dottedLookupVsQuotedIdentity (tbl : String) (u : URL) (cs : Except DbError String)
    (qi : String → String) (s p1 p2 : String) (rest : List String)
    (hsplit : goSplit tbl '.' = s :: p1 :: p2 :: rest) (hs : s ≠ "") :
    migrationsTableExistsLookup tbl u cs
      = .ok (s, String.intercalate "." (p1 :: p2 :: rest)) ∧
    quotedMigrationsTableNameParts tbl u cs qi
      = .ok (qi s, String.intercalate "." ((p1 :: p2 :: rest).map qi)) := by
  have h1 : 1 < (goSplit tbl '.').length := by rw [hsplit]; simp
  have h2 : (goSplit tbl '.').headD "" ≠ "" := by rw [hsplit]; simpa using hs
  have hm := mtnp_dotted tbl u cs h1 h2
  rw [hsplit] at hm
  simp only [List.headD_cons, List.tail_cons] at hm
  constructor
  · simp only [migrationsTableExistsLookup, hm]
  · simp only [quotedMigrationsTableNameParts, hm]
    simp

/-- Witness for C10 (amended): for "a.b.c" with a doubling-quote server
function, the lookup pair is ("a", "b.c") and the quoted identity quotes
"b" and "c" separately. -/
theorem dottedLookupVsQuotedIdentity_witness :
    migrationsTableExistsLookup "a.b.c"
        { scheme := "postgres", user := none, host := "h", path := "/db", query := [] }
        (.ok "")
      = .ok ("a", String.intercalate "." ["b", "c"]) ∧
    quotedMigrationsTableNameParts "a.b.c"
        { scheme := "postgres", user := none, host := "h", path := "/db", query := [] }
        (.ok "") (fun x => "\"" ++ x ++ "\"")
      = .ok ("\"" ++ "a" ++ "\"",
             String.intercalate "." (["b", "c"].map (fun x => "\"" ++ x ++ "\""))) := by
  exact dottedLookupVsQuotedIdentity "a.b.c"
    { scheme := "postgres", user := none, host := "h", path := "/db", query := [] }
    (.ok "") (fun x => "\"" ++ x ++ "\"") "a" "b" "c" [] (by decide) (by decide)

/-- Claim C5: DatabaseExists returns (true, none) when the ping of the
primary connection succeeds, (false, none) — not an error — when the ping
fails with the engine's "database does not exist" signal (SQLSTATE 3D000),
and (false, some err) with the original error for any other ping failure. -/
theorem databaseExists_spec (r : Option DbError) :
    (r = none → databaseExists r = (true, none)) ∧
    (∀ e, r = some e → isPqCode e "3D000" = true → databaseExists r = (false, none)) ∧
    (∀ e, r = some e → isPqCode e "3D000" = false → databaseExists r = (false, some e)) := by
  refine ⟨?_, ?_, ?_⟩ <;> intros <;> subst_vars <;> simp [databaseExists, *]

/-- Witness for C5: a ping failure carrying SQLSTATE 3D000 yields
(false, none). -/
theorem databaseExists_spec_witness :
    databaseExists (some (DbError.pq "3D000" "")) = (false, none) :=
  (databaseExists_spec (some (DbError.pq "3D000" ""))).2.1
    (DbError.pq "3D000" "") rfl (by decide)

/-- Counterexample to C2 as stated: when the first CREATE TABLE attempt
fails with SQLSTATE 3F000 but the subsequent CREATE SCHEMA IF NOT EXISTS
itself fails (permission denied), the code does not retry the table
creation and returns the schema-creation error, not a second attempt's
result: only one createTable statement is issued. -/
theorem createMigrationsTable_cex :
    createMigrationsTable (some (DbError.pq "3F000" ""))
        (some (DbError.generic "permission denied")) none
      = ([SqlOp.createTable, SqlOp.createSchema], some (DbError.generic "permission denied")) ∧
    createMigrationsTable (some (DbError.pq "3F000" ""))
        (some (DbError.generic "permission denied")) none
      ≠ ([SqlOp.createTable, SqlOp.createSchema, SqlOp.createTable], none) := by
  decide

/-- Claim C2 (amended): CreateMigrationsTable attempts CREATE TABLE IF NOT
EXISTS once; on success or on a first-attempt failure other than the
"schema does not exist" signal (SQLSTATE 3F000) it stops there, returning
that result unmodified with no schema creation and no retry; exactly when
the first attempt fails with 3F000 it issues CREATE SCHEMA IF NOT EXISTS,
and then: if the schema creation succeeds it retries the table creation
exactly once and returns the second attempt's result as-is, while if the
schema creation fails that error is returned with no retry. -/
theorem createMigrationsTable_spec (r1 r2 r3 : Option DbError) :
    (r1 = none → createMigrationsTable r1 r2 r3 = ([SqlOp.createTable], none)) ∧
    (∀ e, r1 = some e → isPqCode e "3F000" = false →
      createMigrationsTable r1 r2 r3 = ([SqlOp.createTable], some e)) ∧
    (∀ e, r1 = some e → isPqCode e "3F000" = true → r2 = none →
      createMigrationsTable r1 r2 r3
        = ([SqlOp.createTable, SqlOp.createSchema, SqlOp.createTable], r3)) ∧
    (∀ e e2, r1 = some e → isPqCode e "3F000" = true → r2 = some e2 →
      createMigrationsTable r1 r2 r3
        = ([SqlOp.createTable, SqlOp.createSchema], some e2)) := by
  refine ⟨?_, ?_, ?_, ?_⟩ <;> intros <;> subst_vars <;> simp [createMigrationsTable, *]

/-- Witness for C2 (amended): first attempt fails with 3F000, schema
creation succeeds, the retried creation's outcome (here a duplicate-object
error) is returned as-is after three statements. -/
theorem createMigrationsTable_spec_witness :
    createMigrationsTable (some (DbError.pq "3F000" "")) none
        (some (DbError.generic "deadlock"))
      = ([SqlOp.createTable, SqlOp.createSchema, SqlOp.createTable],
         some (DbError.generic "deadlock")) :=
  (createMigrationsTable_spec (some (DbError.pq "3F000" "")) none
      (some (DbError.generic "deadlock"))).2.2.1
    (DbError.pq "3F000" "") rfl (by decide) rfl

/-- Counterexample to C3 as stated: the dump's trailing section does not
begin with — nor anywhere contain — the literal string
"-- Dbmate schema migrations --"; with no applied migrations the section
is exactly the banner "\n--\n-- Dbmate schema migrations\n--\n\n". -/
theorem schemaMigrationsDump_cex :
    schemaMigrationsDump "\"public\".\"schema_migrations\"" (fun s => s) []
      = "\n--\n-- Dbmate schema migrations\n--\n\n" ∧
    ("-- Dbmate schema migrations --".data.isPrefixOf
        (schemaMigrationsDump "\"public\".\"schema_migrations\"" (fun s => s) []).data) = false := by
  refine ⟨by decide, by decide⟩

/-- Claim C3 (amended): the dump artifact's trailing section is the fixed
banner "\n--\n-- Dbmate schema migrations\n--\n\n" (whose text line reads
"-- Dbmate schema migrations") followed by nothing when no migrations are
applied, and otherwise by exactly one multi-row INSERT statement listing
all applied versions as server-quoted string literals in ascending version
order. -/
theorem schemaMigrationsDump_spec (table : String) (ql : String → String)
    (versions : List String) :
    ∃ sorted : List String,
      sorted.Perm versions ∧
      List.Sorted (· ≤ ·) sorted ∧
      schemaMigrationsDump table ql versions =
        "\n--\n-- Dbmate schema migrations\n--\n\n" ++
          (if versions = [] then ""
           else "INSERT INTO " ++ table ++ " (version) VALUES\n    (" ++
             String.intercalate "),\n    (" (sorted.map ql) ++ ");\n") := by
  refine ⟨List.insertionSort (· ≤ ·) versions, List.perm_insertionSort _ _,
    List.sorted_insertionSort _ _, ?_⟩
  simp only [schemaMigrationsDump, schemaMigrationsDumpBuf, ledgerVersionsAsc]
  by_cases hv : versions = []
  · subst hv
    simp
  · have hne : List.insertionSort (· ≤ ·) versions ≠ [] := by
      intro hh
      have hp := List.perm_insertionSort (· ≤ ·) versions
      rw [hh] at hp
      exact hv hp.symm.eq_nil
    have hlen : 0 < ((List.insertionSort (· ≤ ·) versions).map ql).length := by
      simpa using List.length_pos.mpr hne
    rw [if_pos hlen, if_neg hv]
    exact strAppend5 _ _ _ _ _ _

/-- Claim C4: with `limit ≥ 0` the select returns at most `limit` rows; the
rows are always in strictly descending version order (versions are
pairwise distinct, being primary keys); with a negative limit every
applied version is returned. -/
theorem selectMigrations_spec (versions : List String) (limit : Int)
    (hnd : versions.Nodup) :
    (0 ≤ limit → (selectMigrationsRows versions limit).length ≤ limit.toNat) ∧
    List.Sorted (fun a b : String => b < a) (selectMigrationsRows versions limit) ∧
    (limit < 0 → (selectMigrationsRows versions limit).Perm versions) := by
  have hperm := List.perm_insertionSort (fun a b : String => b ≤ a) versions
  have hsorted : List.Sorted (fun a b : String => b ≤ a)
      (List.insertionSort (fun a b : String => b ≤ a) versions) :=
    List.sorted_insertionSort _ _
  have hnodup : (List.insertionSort (fun a b : String => b ≤ a) versions).Nodup :=
    hperm.nodup_iff.mpr hnd
  have hstrict : List.Sorted (fun a b : String => b < a)
      (List.insertionSort (fun a b : String => b ≤ a) versions) :=
    (List.Pairwise.and hsorted hnodup).imp
      (fun h => lt_of_le_of_ne h.1 (Ne.symm h.2))
  refine ⟨fun hl => ?_, ?_, fun hl => ?_⟩
  · simp only [selectMigrationsRows]
    rw [if_pos hl]
    exact List.length_take_le _ _
  · simp only [selectMigrationsRows]
    split
    · exact List.Pairwise.sublist (List.take_sublist _ _) hstrict
    · exact hstrict
  · simp only [selectMigrationsRows]
    rw [if_neg (by omega)]
    exact hperm

/-- Witness for C4: a two-element ledger; with limit 1 at most one row is
returned, with limit -1 all versions come back. -/
theorem selectMigrations_spec_witness :
    (selectMigrationsRows ["20230101", "20230102"] 1).length ≤ (1 : Int).toNat ∧
    (selectMigrationsRows ["20230101", "20230102"] (-1)).Perm ["20230101", "20230102"] := by
  refine ⟨(selectMigrations_spec ["20230101", "20230102"] 1 (by decide)).1 (by decide),
    (selectMigrations_spec ["20230101", "20230102"] (-1) (by decide)).2.2 (by decide)⟩

/-- Claim C6: for every connection URL the dump argument list is one
"--schema s" pair per non-blank whitespace-trimmed comma-separated
search_path entry, in order, followed by the URL with search_path removed
from its query as the final positional argument; the spec's example
" a , b,,c " yields exactly --schema a --schema b --schema c. -/
theorem connectionArgsForDump_spec (u : URL) :
    connectionArgsForDump u
      = (((goSplit (queryGet u.query "search_path") ',').map goTrimSpace).filter
            (fun s => !(s == ""))).flatMap (fun s => ["--schema", s]) ++
          [URL.render { u with query := queryDel u.query "search_path" }] ∧
    connectionArgsForDump
        { scheme := "postgres", user := none, host := "db.example.com", path := "/app",
          query := [("search_path", " a , b,,c "), ("sslmode", "disable")] }
      = ["--schema", "a", "--schema", "b", "--schema", "c",
         "postgres://db.example.com/app?sslmode=disable"] := by
  constructor
  · simp only [connectionArgsForDump]
    rw [foldl_schema_flags]
    simp
  · decide

/-- Claim C7: database-name resolution precedence: the URL path without
its leading slash; else the PGDATABASE environment override; else the URL
user's name; else the empty string. -/
theorem resolveDatabaseName_spec (u : URL) (pgdatabase : String) :
    (strippedPath u ≠ "" → resolveDatabaseName u pgdatabase = strippedPath u) ∧
    (strippedPath u = "" → pgdatabase ≠ "" →
      resolveDatabaseName u pgdatabase = pgdatabase) ∧
    (strippedPath u = "" → pgdatabase = "" →
      resolveDatabaseName u pgdatabase = u.user.getD "") := by
  refine ⟨fun h => ?_, fun h1 h2 => ?_, fun h1 h2 => ?_⟩
  · simp [strippedPath] at h
    simp [resolveDatabaseName, strippedPath, h]
  · simp [strippedPath] at h1
    simp [resolveDatabaseName, strippedPath, h1, h2]
  · simp [strippedPath] at h1
    cases hu : u.user with
    | some un => simp [resolveDatabaseName, strippedPath, h1, h2, hu]
    | none => simp [resolveDatabaseName, strippedPath, h1, h2, hu]

/-- Witness for C7: empty path and no override fall back to the URL's
user name. -/
theorem resolveDatabaseName_spec_witness :
    resolveDatabaseName
        { scheme := "postgres", user := some "alice", host := "h", path := "", query := [] } ""
      = "alice" :=
  (resolveDatabaseName_spec
      { scheme := "postgres", user := some "alice", host := "h", path := "", query := [] }
      "").2.2 (by decide) rfl

/-- Claim C9: QueryError passes the underlying error and the query text
through unchanged; position is the engine-supplied Position field when it
parses as an integer (Go strconv.Atoi semantics) and 0 otherwise,
including for non-engine errors that carry no such field. -/
theorem queryError_spec (query : String) (err : DbError) :
    (queryError query err).err = err ∧
    (queryError query err).query = query ∧
    (∀ code pos n, err = DbError.pq code pos → goAtoi pos = some n →
      (queryError query err).position = n) ∧
    (∀ code pos, err = DbError.pq code pos → goAtoi pos = none →
      (queryError query err).position = 0) ∧
    (∀ msg, err = DbError.generic msg → (queryError query err).position = 0) := by
  refine ⟨rfl, rfl, ?_, ?_, ?_⟩ <;> intros <;> subst_vars <;> simp [queryError, *]

/-- Witness for C9: a pq error at position "15" is normalized to
position 15. -/
theorem queryError_spec_witness :
    (queryError "select 1" (DbError.pq "42601" "15")).position = 15 :=
  (queryError_spec "select 1" (DbError.pq "42601" "15")).2.2.1 "42601" "15" 15 rfl
    (by decide)

end DbmatePg
